import Mathlib

/-!
Verification of the finance-dashboard data layer against its specification.

The Python source is shallowly embedded: pandas dataframes become lists of
rows, the category store (a Python dict, insertion ordered) becomes an
association list, session state and the GitHub storage backend become
explicit parameters and state records, and fallible operations return
Option or Except.
-/

set_option autoImplicit false

namespace FinanceDashboard

/-- A processed ledger row, as produced by loading a statement: the columns
kept by the pipeline in src/data/processing.py (Type, Product, Date,
Description, Amount, Balance) plus the two derived columns Hide and
Category. -/
structure Row where
  type : String
  product : String
  date : Int
  description : String
  amount : ℚ
  balance : ℚ
  hide : Bool
  category : String
deriving DecidableEq, Repr

/-- The deduplication key used by merge: the (Date, Description, Balance)
column subset of drop_duplicates in merge_dataframes. -/
def mergeKey (r : Row) : Int × String × ℚ :=
  (r.date, r.description, r.balance)

/-- pandas drop_duplicates(subset=[Date, Description, Balance], keep=first):
keeps the first occurrence of each key, scanning left to right; seen is the
set of keys already kept. -/
def dropDuplicatesFirst : List Row → List (Int × String × ℚ) → List Row
  | [], _ => []
  | r :: rs, seen =>
    if mergeKey r ∈ seen then dropDuplicatesFirst rs seen
    else r :: dropDuplicatesFirst rs (mergeKey r :: seen)

/-- merge_dataframes (src/data/processing.py): concatenates the existing and
new rows, drops duplicate keys keeping the first occurrence, and reports
len(combined) - len(main) as the number of new rows. -/
def merge_dataframes (main_df new_df : List Row) : List Row × Int :=
  let combined := dropDuplicatesFirst (main_df ++ new_df) []
  (combined, (combined.length : Int) - (main_df.length : Int))

/-- The seen-set after scanning a list, for splitting dropDuplicatesFirst
over an append. -/
def seenAfter : List Row → List (Int × String × ℚ) → List (Int × String × ℚ)
  | [], seen => seen
  | r :: rs, seen =>
    if mergeKey r ∈ seen then seenAfter rs seen
    else seenAfter rs (mergeKey r :: seen)

/-- The rows of a ledger carrying a given merge key, in order. -/
def rowsWithKey (k : Int × String × ℚ) (rows : List Row) : List Row :=
  rows.filter (fun r => mergeKey r = k)

/-- The first row of a ledger carrying a given merge key, if any. -/
def firstWithKey (k : Int × String × ℚ) (rows : List Row) : Option Row :=
  rows.find? (fun r => mergeKey r = k)

/-- ASCII lower-casing of one character, as python str.lower acts on the
ASCII descriptions and keywords of this data model. -/
def lowerChar (c : Char) : Char :=
  if 65 ≤ c.toNat ∧ c.toNat ≤ 90 then Char.ofNat (c.toNat + 32) else c

/-- python str.strip removes these whitespace characters from both ends. -/
def isPySpace (c : Char) : Bool :=
  c == ' ' || c == '\t' || c == '\n' || c == '\r' || c == '\x0b' || c == '\x0c'

/-- python s.strip(). -/
def pyStrip (s : String) : String :=
  String.mk (((s.data.dropWhile isPySpace).reverse.dropWhile isPySpace).reverse)

/-- python s.lower().strip(), applied by categorize_transactions to both
keywords and descriptions. -/
def lowerStrip (s : String) : String :=
  pyStrip (String.mk (s.data.map lowerChar))

/-- One iteration of the loop over st.session_state.categories.items() in
categorize_transactions: skip the category when it is named Uncategorized or
has no keywords, otherwise set Category on every row whose lowered and
stripped description occurs among the lowered and stripped keywords. -/
def applyCategoryPass (df : List Row) (category : String) (keywords : List String) :
    List Row :=
  if category = "Uncategorized" ∨ keywords = [] then df
  else
    let lowered := keywords.map lowerStrip
    df.map fun row =>
      if lowerStrip row.description ∈ lowered then { row with category := category }
      else row

/-- categorize_transactions (src/data/processing.py): initializes every row
to Uncategorized, then runs one pass per category in store insertion order.
A later matching pass overwrites the value written by an earlier one. -/
def categorize_transactions (categories : List (String × List String))
    (df : List Row) : List Row :=
  categories.foldl (fun acc p => applyCategoryPass acc p.1 p.2)
    (df.map fun r => { r with category := "Uncategorized" })

/-- The effect of one category on an already-assigned category for a fixed
description: keep the old value unless this category matches. -/
def categoryStep (desc : String) (acc : String) (p : String × List String) : String :=
  if p.1 = "Uncategorized" ∨ p.2 = [] then acc
  else if lowerStrip desc ∈ p.2.map lowerStrip then p.1 else acc

/-- The category that the loop of categorize_transactions leaves on a row:
the last category in insertion order whose keyword list matches the
description, or Uncategorized when none matches. -/
def lastMatchCategory (categories : List (String × List String)) (desc : String) :
    String :=
  categories.foldl (categoryStep desc) "Uncategorized"

/-- A sample existing-ledger row used to instantiate merge theorems. -/
def ledgerRow : Row :=
  { type := "CARD_PAYMENT", product := "Current", date := 7,
    description := "Tesco", amount := -10, balance := 100,
    hide := false, category := "Groceries" }

/-- The same transaction re-uploaded: identical merge key but different
category and hide flag. -/
def reuploadRow : Row :=
  { type := "CARD_PAYMENT", product := "Current", date := 7,
    description := "Tesco", amount := -10, balance := 100,
    hide := true, category := "Uncategorized" }

/-- The row of the category tie-break example: description with trailing
whitespace and different case than the keyword. -/
def coffeeRow : Row :=
  { type := "CARD_PAYMENT", product := "Current", date := 0,
    description := "Coffee ", amount := -3, balance := 97,
    hide := false, category := "Uncategorized" }

/-- The category store: st.session_state.categories, a python dict from
category name to keyword list, iterated in insertion order. -/
abbrev CategoryStore := List (String × List String)

/-- add_keyword_to_category (src/data/processing.py): strips the keyword;
when the stripped keyword is nonempty and not contained in the list that
categories.get(category, []) returns, it appends the stripped keyword to
categories[category] and returns True; the subscript raises KeyError,
modelled as the none result, when the category key is absent. Otherwise it
returns False and leaves the store unchanged. -/
def add_keyword_to_category (categories : CategoryStore)
    (category keyword : String) : Option (CategoryStore × Bool) :=
  let kw := pyStrip keyword
  if kw ≠ "" ∧ kw ∉ ((categories.lookup category).getD []) then
    match categories.lookup category with
    | some _ =>
      some (categories.map fun p =>
        if p.1 = category then (p.1, p.2 ++ [kw]) else p, true)
    | none => none
  else
    some (categories, false)

/-- The raw value found in the Balance column of an uploaded CSV: a number
(including numeric text that pandas parses), non-numeric text, or an empty
cell. -/
inductive BalanceCell where
  | num (q : ℚ)
  | text (s : String)
  | null
deriving DecidableEq, Repr

/-- pd.to_numeric with errors=coerce: numeric cells pass through, anything
else becomes NaN, modelled as none. -/
def toNumericCoerce : BalanceCell → Option ℚ
  | .num q => some q
  | .text _ => none
  | .null => none

/-- One row of the uploaded statement after pd.read_csv and the column
drops: the columns the pipeline goes on to use. -/
structure RawRow where
  type : String
  product : String
  startedDate : Int
  description : String
  amount : ℚ
  balance : BalanceCell
deriving DecidableEq, Repr

/-- CURRENCY_DECIMALS (src/utils/currency.py): currencies without decimal
places; every other currency defaults to 2. -/
def CURRENCY_DECIMALS : List (String × Nat) :=
  [("JPY", 0), ("KRW", 0), ("VND", 0), ("IDR", 0), ("HUF", 0), ("CLP", 0),
    ("ISK", 0)]

/-- numpy rounding: round half to even, computed on the numerator and
denominator. f is the floor of q and rem the remainder q - f scaled by the
denominator, so 2*rem versus den compares the fractional part with 1/2. -/
def roundHalfToEven (q : ℚ) : ℤ :=
  let f := Int.fdiv q.num q.den
  let rem := q.num - f * q.den
  if 2 * rem < q.den then f
  else if (q.den : ℤ) < 2 * rem then f + 1
  else if f % 2 = 0 then f else f + 1

/-- The Amount rounding step of load_statement: whole units for zero-decimal
currencies, otherwise rounded to the currency's decimal places. -/
def roundAmount (currency : String) (q : ℚ) : ℚ :=
  let decimals := (CURRENCY_DECIMALS.lookup currency).getD 2
  if decimals = 0 then (roundHalfToEven q : ℚ)
  else (roundHalfToEven (q * 10 ^ decimals) : ℚ) / 10 ^ decimals

/-- Is needle a contiguous substring of hay. -/
def listContainsSub (hay needle : List Char) : Bool :=
  match hay with
  | [] => needle.isEmpty
  | _ :: t => needle.isPrefixOf hay || listContainsSub t needle

/-- df.Description.str.contains("To " + currency, case=False, na=False). -/
def descContainsToCurrency (currency desc : String) : Bool :=
  listContainsSub (desc.data.map lowerChar) (("To " ++ currency).data.map lowerChar)

/-- The Hide column of load_statement: the disjunction of the four .loc
masks that set Hide to True. -/
def computeHide (currency : String) (r : RawRow) : Bool :=
  descContainsToCurrency currency r.description
    || r.description == "Transfer from Revolut user"
    || (r.product == "Current" &&
        (r.description == "From Savings Account"
          || r.description == "To Savings Account"))

/-- A statement row as load_statement shapes it once its Balance has been
coerced to q: Started Date renamed to Date, Hide computed, Amount rounded by
currency, Balance rounded to a whole number, Category still to be filled by
categorize_transactions. -/
def processedRow (currency : String) (r : RawRow) (q : ℚ) : Row :=
  { type := r.type, product := r.product, date := r.startedDate,
    description := r.description, amount := roundAmount currency r.amount,
    balance := (roundHalfToEven q : ℚ), hide := computeHide currency r,
    category := "Uncategorized" }

/-- load_statement (src/data/processing.py), from the point where the frame
has its working columns: drops rows whose Type is INTEREST, computes Hide,
rounds Amount, coerces Balance to a whole number dropping rows that fail
coercion while warning with their Description and (rounded) Amount, and
finally categorizes. Returns the parsed ledger and the warning list. -/
def load_statement (currency : String) (categories : CategoryStore)
    (rows : List RawRow) : List Row × List (String × ℚ) :=
  let nonInterest := rows.filter fun r => r.type ≠ "INTEREST"
  let warnings := (nonInterest.filter fun r => toNumericCoerce r.balance = none).map
    fun r => (r.description, roundAmount currency r.amount)
  let kept := nonInterest.filterMap fun r =>
    (toNumericCoerce r.balance).map (processedRow currency r)
  (categorize_transactions categories kept, warnings)

/-- A statement row carrying interest income. -/
def interestRaw : RawRow :=
  { type := "INTEREST", product := "Savings", startedDate := 3,
    description := "Gross interest", amount := 1, balance := .num 101 }

/-- An ordinary card payment row. -/
def cardRaw : RawRow :=
  { type := "CARD_PAYMENT", product := "Current", startedDate := 4,
    description := "Coffee shop", amount := -3, balance := .num 98 }

/-- A row whose Balance cell cannot be coerced to a number. -/
def badBalanceRaw : RawRow :=
  { type := "CARD_PAYMENT", product := "Current", startedDate := 5,
    description := "Broken row", amount := -2, balance := .text "oops" }

/-- The concrete statement used to instantiate the load_statement
theorems. -/
def sampleStatement : List RawRow :=
  [interestRaw, cardRaw, badBalanceRaw]

/-- What load_statement makes of cardRaw under HUF with no categories. -/
def processedCard : Row :=
  { type := "CARD_PAYMENT", product := "Current", date := 4,
    description := "Coffee shop", amount := -3, balance := 98,
    hide := false, category := "Uncategorized" }

/-- A stored password record, as hash_password writes it into users.json:
a fresh salt concatenated with pbkdf2(password, salt). PBKDF2-HMAC-SHA256
is an external primitive; it is idealized as the injective pairing of salt
and password. -/
structure PHash where
  salt : String
  password : String
deriving DecidableEq, Repr

/-- verify_password (src/auth/authentication.py): splits the stored salt
off and recomputes the hash of the provided password; under the injective
idealization it succeeds exactly when the provided password equals the one
that was hashed. -/
def verify_password (stored : PHash) (provided : String) : Bool :=
  stored.password == provided

/-- Modelled from the spec: derive_key_from_password (src/utils/encryption.py)
runs PBKDF2 over the username-derived salt and the stored password hash;
the external KDF is idealized as the injective pairing of both inputs. -/
structure Key where
  username : String
  phash : PHash
deriving DecidableEq, Repr

/-- derive_key_from_password under the idealized KDF. -/
def derive_key_from_password (username : String) (phash : PHash) : Key :=
  ⟨username, phash⟩

/-- Modelled from the spec: stored file content is either a Fernet token
(authenticated ciphertext produced under a key, base64-wrapped by
encrypt_data) or raw non-token bytes (legacy plaintext, defaults, or
corrupted data). cryptography.fernet is an external library; authenticated
encryption is idealized: a token decrypts only under the key that produced
it, and anything that is not a well-formed token fails authentication. -/
inductive Blob where
  | token (key : Key) (plaintext : String)
  | raw (s : String)
deriving DecidableEq, Repr

/-- The raw bytes of a blob read back as text, for the code paths that
return content without decrypting it. -/
def Blob.render : Blob → String
  | .token k p => "fernet:" ++ k.username ++ ":" ++ k.phash.salt ++ ":"
      ++ k.phash.password ++ ":" ++ p
  | .raw s => s

/-- encrypt_data (src/utils/encryption.py): Fernet-encrypt the data under
the key and base64-encode the token. -/
def encrypt_data (data : String) (key : Key) : Blob :=
  .token key data

/-- decrypt_data (src/utils/encryption.py): base64-decode and
Fernet-decrypt; every failure (wrong key, truncated or corrupted blob,
content that is not a token) is caught and returned as none, never as
garbage plaintext. -/
def decrypt_data : Blob → Key → Option String
  | .token k p, key => if k = key then some p else none
  | .raw _, _ => none

/-- is_encrypted_data (src/utils/encryption.py): the base64-and-length
heuristic; Fernet tokens are base64 text decoding to more than 50 bytes,
while the raw contents this code writes unencrypted fail the check. -/
def is_encrypted_data : Blob → Bool
  | .token _ _ => true
  | .raw _ => false

/-- python truthiness of st.session_state.get("username"): falsy when
missing or empty. -/
def sessionFalsy : Option String → Bool
  | none => true
  | some s => s == ""

/-- The state the storage layer sees: whether the GitHub client
initialized, the logged-in username, the repository files, and the
users.json password records. -/
structure StorageState where
  repoConfigured : Bool
  sessionUsername : Option String
  files : List (String × Blob)
  users : List (String × PHash)
deriving DecidableEq, Repr

/-- get_user_files(username).dataframe (src/data/github_storage.py). -/
def user_dataframe_path (username : String) : String :=
  if username = "admin" then "data/dataframes/main_dataframe.csv"
  else "data/dataframes/" ++ username ++ "_dataframe.csv"

/-- get_user_files(username).categories (src/data/github_storage.py). -/
def user_categories_path (username : String) : String :=
  if username = "admin" then "data/categories/categories.json"
  else "data/categories/" ++ username ++ "_categories.json"

/-- get_user_encryption_key (src/utils/encryption.py): no key for admin;
only the currently logged-in user can obtain their own key; the key is
derived from the stored password hash read out of users.json. -/
def get_user_encryption_key (st : StorageState) (username : String) :
    Option Key :=
  if username = "admin" then none
  else if sessionFalsy st.sessionUsername ∨ st.sessionUsername ≠ some username then
    none
  else if ¬ st.repoConfigured then none
  else
    match st.users.lookup username with
    | some ph => some (derive_key_from_password username ph)
    | none => none

/-- read_encrypted_github_file (src/data/github_storage.py): refuses with
none unless the requester is the owner, the requester is admin, or the
file owner is admin; admin-owned content is returned as-is; content that
fails the encryption heuristic is returned as-is; otherwise the content is
decrypted with the owner's key, falling back to the raw content when
decryption fails (legacy unencrypted data). -/
def read_encrypted_github_file (st : StorageState) (file_path username : String) :
    Option String :=
  if ¬ st.repoConfigured then none
  else if sessionFalsy st.sessionUsername ∨
      (st.sessionUsername ≠ some username ∧ st.sessionUsername ≠ some "admin" ∧
        username ≠ "admin") then none
  else
    match st.files.lookup file_path with
    | none => none
    | some content =>
      if username = "admin" then some content.render
      else if ¬ is_encrypted_data content then some content.render
      else
        match get_user_encryption_key st username with
        | some key =>
          match decrypt_data content key with
          | some d => some d
          | none => some content.render
        | none => none

/-- github_repo.update_file / create_file: replace the content at the path
or append the file when absent. -/
def updateFile (files : List (String × Blob)) (path : String) (content : Blob) :
    List (String × Blob) :=
  if (files.lookup path).isSome then
    files.map fun p => if p.1 = path then (p.1, content) else p
  else files ++ [(path, content)]

/-- write_github_file (src/data/github_storage.py) against a backend in
which the write of a given path either succeeds or fails, as writeOk says:
on success the file is stored and True returned, on failure the repository
is unchanged and False returned. -/
def write_github_file (files : List (String × Blob)) (writeOk : String → Bool)
    (path : String) (content : Blob) : Bool × List (String × Blob) :=
  if writeOk path then (true, updateFile files path content) else (false, files)

/-- The re-encryption loop of change_password
(src/auth/authentication.py): for each of the user's files, read it (a
missing or empty file is skipped), decrypt it with the old key (failure
aborts the whole password change with the writes so far still applied),
re-encrypt with the new key and write it back (a failed write also
aborts). decrypt_data catches its own exceptions, so the
legacy-plaintext except branch of the source is unreachable. -/
def reencrypt_loop (writeOk : String → Bool) (old_key new_key : Key) :
    List String → List (String × Blob) → Bool × List (String × Blob)
  | [], files => (true, files)
  | path :: rest, files =>
    match files.lookup path with
    | none => reencrypt_loop writeOk old_key new_key rest files
    | some content =>
      match decrypt_data content old_key with
      | none => (false, files)
      | some plain =>
        match write_github_file files writeOk path (encrypt_data plain new_key) with
        | (true, files2) => reencrypt_loop writeOk old_key new_key rest files2
        | (false, files2) => (false, files2)

/-- change_password (src/auth/authentication.py): field checks, old
password verification, the re-encryption loop over the user's dataframe
and categories files, then the credential update written to users.json.
salt is the fresh salt that hash_password draws for the new password. -/
def change_password (st : StorageState) (writeOk : String → Bool) (salt : String)
    (username old_password new_password confirm_password : String) :
    Bool × StorageState :=
  if username = "" ∨ old_password = "" ∨ new_password = "" then (false, st)
  else if new_password ≠ confirm_password then (false, st)
  else if ¬ st.repoConfigured then (false, st)
  else
    match st.users.lookup username with
    | none => (false, st)
    | some stored =>
      if ¬ verify_password stored old_password then (false, st)
      else
        let old_key := derive_key_from_password username stored
        let new_hashed : PHash := ⟨salt, new_password⟩
        let new_key := derive_key_from_password username new_hashed
        match reencrypt_loop writeOk old_key new_key
          [user_dataframe_path username, user_categories_path username] st.files with
        | (false, files2) => (false, { st with files := files2 })
        | (true, files2) =>
          let users2 := st.users.map fun p =>
            if p.1 = username then (p.1, new_hashed) else p
          if writeOk "data/users.json" then
            (true, { st with files := files2, users := users2 })
          else (false, { st with files := files2 })

/-- Sample keys for the encryption round-trip witness. -/
def aliceKey : Key := ⟨"alice", ⟨"saltA", "pwA"⟩⟩

/-- A second, different key. -/
def bobKey : Key := ⟨"bob", ⟨"saltB", "pwB"⟩⟩

/-- The storage state of the authorization counterexample: alice is logged
in and the store holds an admin-owned file. -/
def adminReadState : StorageState :=
  { repoConfigured := true, sessionUsername := some "alice",
    files := [("data/categories/categories.json", .raw "{}")], users := [] }

/-- The storage state of the authorization witness: mallory is logged in
and the store holds an encrypted file owned by bob. -/
def deniedReadState : StorageState :=
  { repoConfigured := true, sessionUsername := some "mallory",
    files := [("data/dataframes/bob_dataframe.csv",
      .token ⟨"bob", ⟨"saltC", "pwC"⟩⟩ "LEDGER")],
    users := [("bob", ⟨"saltC", "pwC"⟩)] }

/-- The stored credential of the change_password failing input. -/
def carolOldHash : PHash := ⟨"salt0", "oldpw"⟩

/-- The state of the change_password failing input: the dataframe blob is
a well-formed token under the old key, the categories blob is corrupted
and decrypts under no key. -/
def carolState : StorageState :=
  { repoConfigured := true, sessionUsername := some "carol",
    files := [("data/dataframes/carol_dataframe.csv",
        .token (derive_key_from_password "carol" carolOldHash) "LEDGER"),
      ("data/categories/carol_categories.json", .raw "CORRUPT")],
    users := [("carol", carolOldHash)] }

theorem dropDuplicatesFirst_append (as bs : List Row)
    (seen : List (Int × String × ℚ)) :
    dropDuplicatesFirst (as ++ bs) seen =
      dropDuplicatesFirst as seen ++ dropDuplicatesFirst bs (seenAfter as seen) := by
  induction as generalizing seen with
  | nil => simp [dropDuplicatesFirst, seenAfter]
  | cons r rs ih =>
    simp only [List.cons_append, dropDuplicatesFirst, seenAfter]
    by_cases h : mergeKey r ∈ seen
    · simp [h, ih]
    · simp [h, ih]

theorem mem_seenAfter (as : List Row) (seen : List (Int × String × ℚ))
    (k : Int × String × ℚ) :
    k ∈ seenAfter as seen ↔ k ∈ as.map mergeKey ∨ k ∈ seen := by
  induction as generalizing seen with
  | nil => simp [seenAfter]
  | cons r rs ih =>
    simp only [seenAfter, List.map_cons, List.mem_cons]
    by_cases h : mergeKey r ∈ seen
    · rw [if_pos h, ih]
      constructor
      · rintro (hk | hk)
        · exact Or.inl (Or.inr hk)
        · exact Or.inr hk
      · rintro ((hk | hk) | hk)
        · subst hk; exact Or.inr h
        · exact Or.inl hk
        · exact Or.inr hk
    · rw [if_neg h, ih]
      simp only [List.mem_cons]
      tauto

theorem mem_map_mergeKey_dropDuplicatesFirst (xs : List Row)
    (seen : List (Int × String × ℚ)) (k : Int × String × ℚ) :
    k ∈ (dropDuplicatesFirst xs seen).map mergeKey ↔
      k ∈ xs.map mergeKey ∧ k ∉ seen := by
  induction xs generalizing seen with
  | nil => simp [dropDuplicatesFirst]
  | cons r rs ih =>
    simp only [dropDuplicatesFirst, List.map_cons, List.mem_cons]
    by_cases h : mergeKey r ∈ seen
    · rw [if_pos h, ih]
      constructor
      · rintro ⟨hk, hns⟩
        exact ⟨Or.inr hk, hns⟩
      · rintro ⟨hk | hk, hns⟩
        · subst hk; exact absurd h hns
        · exact ⟨hk, hns⟩
    · rw [if_neg h]
      simp only [List.map_cons, List.mem_cons, ih]
      by_cases he : k = mergeKey r
      · subst he; simp [h]
      · constructor
        · rintro (hk | ⟨hk, hns⟩)
          · exact absurd hk he
          · exact ⟨Or.inr hk, fun hs => hns (Or.inr hs)⟩
        · rintro ⟨hk | hk, hns⟩
          · exact absurd hk he
          · refine Or.inr ⟨hk, ?_⟩
            rintro (h1 | h2)
            · exact he h1
            · exact hns h2

theorem dropDuplicatesFirst_eq_nil (bs : List Row)
    (seen : List (Int × String × ℚ))
    (h : ∀ b ∈ bs, mergeKey b ∈ seen) :
    dropDuplicatesFirst bs seen = [] := by
  induction bs with
  | nil => rfl
  | cons r rs ih =>
    have hr : mergeKey r ∈ seen := h r (List.mem_cons_self r rs)
    simp only [dropDuplicatesFirst, if_pos hr]
    exact ih fun b hb => h b (List.mem_cons_of_mem r hb)

theorem not_mem_seen_of_mem_dropDuplicatesFirst (xs : List Row)
    (seen : List (Int × String × ℚ)) (r : Row)
    (h : r ∈ dropDuplicatesFirst xs seen) : mergeKey r ∉ seen := by
  induction xs generalizing seen with
  | nil => simp [dropDuplicatesFirst] at h
  | cons x rs ih =>
    simp only [dropDuplicatesFirst] at h
    by_cases hx : mergeKey x ∈ seen
    · rw [if_pos hx] at h
      exact ih seen h
    · rw [if_neg hx] at h
      rcases List.mem_cons.mp h with he | hm
      · exact he ▸ hx
      · intro hs
        exact ih (mergeKey x :: seen) hm (List.mem_cons_of_mem _ hs)

theorem nodup_map_mergeKey_dropDuplicatesFirst (xs : List Row)
    (seen : List (Int × String × ℚ)) :
    ((dropDuplicatesFirst xs seen).map mergeKey).Nodup := by
  induction xs generalizing seen with
  | nil => simp [dropDuplicatesFirst]
  | cons r rs ih =>
    simp only [dropDuplicatesFirst]
    by_cases h : mergeKey r ∈ seen
    · rw [if_pos h]; exact ih seen
    · rw [if_neg h]
      simp only [List.map_cons, List.nodup_cons]
      refine ⟨?_, ih (mergeKey r :: seen)⟩
      intro hmem
      rw [mem_map_mergeKey_dropDuplicatesFirst] at hmem
      exact hmem.2 (List.mem_cons_self _ _)

theorem dropDuplicatesFirst_of_fresh (xs : List Row)
    (seen : List (Int × String × ℚ))
    (hnodup : (xs.map mergeKey).Nodup)
    (hfresh : ∀ r ∈ xs, mergeKey r ∉ seen) :
    dropDuplicatesFirst xs seen = xs := by
  induction xs generalizing seen with
  | nil => rfl
  | cons r rs ih =>
    have hr : mergeKey r ∉ seen := hfresh r (List.mem_cons_self r rs)
    simp only [dropDuplicatesFirst, if_neg hr, List.cons.injEq, true_and]
    apply ih
    · exact (List.nodup_cons.mp hnodup).2
    · intro x hx
      simp only [List.mem_cons]
      rintro (he | hs)
      · exact (List.nodup_cons.mp hnodup).1 (he ▸ List.mem_map_of_mem mergeKey hx)
      · exact hfresh x (List.mem_cons_of_mem r hx) hs

/-- C2, proved below as merge_idempotent: merging the same new rows a second
time changes nothing and reports zero new rows. -/
theorem merge_core_idem (L N : List Row) :
    dropDuplicatesFirst (dropDuplicatesFirst (L ++ N) [] ++ N) [] =
      dropDuplicatesFirst (L ++ N) [] := by
  set C := dropDuplicatesFirst (L ++ N) [] with hC
  rw [dropDuplicatesFirst_append]
  have h1 : dropDuplicatesFirst C [] = C := by
    apply dropDuplicatesFirst_of_fresh
    · rw [hC]; exact nodup_map_mergeKey_dropDuplicatesFirst _ _
    · intro r _ h; exact absurd h (List.not_mem_nil _)
  have h2 : dropDuplicatesFirst N (seenAfter C []) = [] := by
    apply dropDuplicatesFirst_eq_nil
    intro b hb
    rw [mem_seenAfter]
    left
    rw [hC, mem_map_mergeKey_dropDuplicatesFirst]
    refine ⟨?_, List.not_mem_nil _⟩
    exact List.mem_map_of_mem mergeKey (List.mem_append_right L hb)
  rw [h1, h2, List.append_nil]

/-- C2: merge is idempotent. For every ledger L and new-row set N, merging N
into merge(L,N).ledger returns the same ledger and reports 0 new rows. -/
theorem merge_idempotent (L N : List Row) :
    merge_dataframes (merge_dataframes L N).1 N = ((merge_dataframes L N).1, 0) := by
  simp only [merge_dataframes]
  rw [merge_core_idem]
  simp

theorem rowsWithKey_dropDuplicatesFirst (xs : List Row)
    (seen : List (Int × String × ℚ)) (k : Int × String × ℚ) (hk : k ∉ seen) :
    rowsWithKey k (dropDuplicatesFirst xs seen) = (firstWithKey k xs).toList := by
  induction xs generalizing seen with
  | nil => simp [dropDuplicatesFirst, rowsWithKey, firstWithKey]
  | cons r rs ih =>
    by_cases he : mergeKey r = k
    · have h : mergeKey r ∉ seen := he ▸ hk
      simp only [dropDuplicatesFirst, if_neg h, rowsWithKey, firstWithKey]
      rw [List.filter_cons_of_pos (by simp [he]), List.find?_cons_of_pos _ (by simp [he])]
      have hrest : (dropDuplicatesFirst rs (mergeKey r :: seen)).filter
          (fun x => decide (mergeKey x = k)) = [] := by
        apply List.filter_eq_nil_iff.mpr
        intro x hx
        simp only [decide_eq_true_eq]
        intro hxe
        exact not_mem_seen_of_mem_dropDuplicatesFirst _ _ x hx
          (by rw [hxe, ← he]; exact List.mem_cons_self _ _)
      rw [hrest]
      simp
    · simp only [dropDuplicatesFirst]
      by_cases h : mergeKey r ∈ seen
      · rw [if_pos h]
        rw [ih seen hk]
        simp only [firstWithKey]
        rw [List.find?_cons_of_neg _ (by simp [he])]
      · rw [if_neg h]
        simp only [rowsWithKey, firstWithKey]
        rw [List.filter_cons_of_neg (by simp [he]),
          List.find?_cons_of_neg _ (by simp [he])]
        have hk2 : k ∉ mergeKey r :: seen := by
          intro hmem
          rcases List.mem_cons.mp hmem with h1 | h2
          · exact he h1.symm
          · exact hk h2
        exact ih (mergeKey r :: seen) hk2

theorem find?_append_of_isSome {p : Row → Bool} (l1 l2 : List Row)
    (h : (l1.find? p).isSome) : (l1 ++ l2).find? p = l1.find? p := by
  induction l1 with
  | nil => simp at h
  | cons a l ih =>
    by_cases ha : p a
    · simp only [List.cons_append]
      rw [List.find?_cons_of_pos _ ha, List.find?_cons_of_pos _ ha]
    · have ha2 : ¬ p a = true := ha
      rw [List.find?_cons_of_neg _ ha2] at h
      simp only [List.cons_append]
      rw [List.find?_cons_of_neg _ ha2, List.find?_cons_of_neg _ ha2]
      exact ih h

/-- C3: the merge keeps the first-seen occurrence of each (date,
description, balance) key. When a new row shares its key with an existing
row, the merged ledger contains exactly the existing ledger's first row with
that key, and if the new row survived the merge it must literally be that
existing row (same category and hide flag). -/
theorem merge_first_seen_wins (L N : List Row) (n : Row)
    (_hn : n ∈ N) (hkey : mergeKey n ∈ L.map mergeKey) :
    rowsWithKey (mergeKey n) (merge_dataframes L N).1
        = (firstWithKey (mergeKey n) L).toList ∧
      (n ∈ (merge_dataframes L N).1 → firstWithKey (mergeKey n) L = some n) := by
  have hsome : (firstWithKey (mergeKey n) L).isSome := by
    rcases List.mem_map.mp hkey with ⟨r, hr, hre⟩
    simp only [firstWithKey]
    rw [List.find?_isSome]
    exact ⟨r, hr, by simp [hre]⟩
  have hmain : rowsWithKey (mergeKey n) (merge_dataframes L N).1
      = (firstWithKey (mergeKey n) L).toList := by
    simp only [merge_dataframes]
    rw [rowsWithKey_dropDuplicatesFirst _ _ _ (List.not_mem_nil _)]
    simp only [firstWithKey]
    rw [find?_append_of_isSome _ _ hsome]
  refine ⟨hmain, fun hmem => ?_⟩
  have hfilter : n ∈ rowsWithKey (mergeKey n) (merge_dataframes L N).1 :=
    List.mem_filter.mpr ⟨hmem, by simp⟩
  rw [hmain] at hfilter
  rcases ho : firstWithKey (mergeKey n) L with _ | r
  · rw [ho] at hfilter; simp [Option.toList] at hfilter
  · rw [ho] at hfilter
    simp only [Option.toList, List.mem_singleton] at hfilter
    rw [hfilter]

/-- Witness for C3 at a concrete input: re-uploading a transaction that the
user already categorized keeps the stored category and hide flag. -/
theorem merge_first_seen_wins_witness :
    rowsWithKey (mergeKey reuploadRow) (merge_dataframes [ledgerRow] [reuploadRow]).1
        = (firstWithKey (mergeKey reuploadRow) [ledgerRow]).toList ∧
      (reuploadRow ∈ (merge_dataframes [ledgerRow] [reuploadRow]).1 →
        firstWithKey (mergeKey reuploadRow) [ledgerRow] = some reuploadRow) :=
  merge_first_seen_wins [ledgerRow] [reuploadRow] reuploadRow (by decide) (by decide)

theorem applyCategoryPass_map (df : List Row) (f : Row → String)
    (c : String) (ks : List String) :
    applyCategoryPass (df.map fun r => { r with category := f r }) c ks =
      df.map fun r => { r with category := categoryStep r.description (f r) (c, ks) } := by
  simp only [applyCategoryPass, categoryStep]
  by_cases h : c = "Uncategorized" ∨ ks = []
  · rw [if_pos h]
    simp only [if_pos h]
  · rw [if_neg h]
    simp only [if_neg h, List.map_map]
    apply List.map_congr_left
    intro r _
    simp only [Function.comp_apply]
    by_cases hm : lowerStrip r.description ∈ ks.map lowerStrip
    · rw [if_pos hm, if_pos hm]
    · rw [if_neg hm, if_neg hm]

theorem categorize_foldl (cs : List (String × List String)) (df : List Row)
    (f : Row → String) :
    cs.foldl (fun acc p => applyCategoryPass acc p.1 p.2)
        (df.map fun r => { r with category := f r }) =
      df.map fun r => { r with category := cs.foldl (categoryStep r.description) (f r) } := by
  induction cs generalizing f with
  | nil => simp
  | cons p cs ih =>
    simp only [List.foldl_cons]
    rw [applyCategoryPass_map df f p.1 p.2]
    exact ih fun r => categoryStep r.description (f r) (p.1, p.2)

/-- Amended C1: the categorizer assigns every transaction the LAST category
in store insertion order whose lowered and stripped keyword list contains
the transaction's lowered and stripped description (Uncategorized when no
category matches); all other fields are unchanged. -/
theorem categorize_assigns_last_match (cs : List (String × List String))
    (df : List Row) :
    categorize_transactions cs df =
      df.map fun r => { r with category := lastMatchCategory cs r.description } := by
  simp only [categorize_transactions, lastMatchCategory]
  exact categorize_foldl cs df fun _ => "Uncategorized"

/-- Counterexample to C1 as stated: with categories A then B both holding
the keyword coffee, the description with trailing space and capital C is
assigned B (the last match), not A (the first match). -/
theorem categorize_first_match_counterexample :
    (categorize_transactions [("A", ["coffee"]), ("B", ["coffee"])]
          [coffeeRow]).map Row.category ≠ ["A"] ∧
      (categorize_transactions [("A", ["coffee"]), ("B", ["coffee"])]
          [coffeeRow]).map Row.category = ["B"] := by
  constructor
  · decide
  · decide

/-- Counterexample to C8 as stated: adding a nonempty keyword to a category
that is not in the store raises KeyError (modelled as none) instead of
returning changed equal to false. -/
theorem add_keyword_missing_category_counterexample :
    add_keyword_to_category [("Food", ["pizza"])] "Travel" "train" = none ∧
      add_keyword_to_category [("Food", ["pizza"])] "Travel" "train" ≠
        some ([("Food", ["pizza"])], false) := by
  constructor
  · decide
  · decide

/-- Amended C8: addKeyword trims the keyword; it no-ops with changed=false
when the trimmed keyword is empty or already in the list looked up with an
empty-list default; when the category is missing and the trimmed keyword is
nonempty it raises KeyError rather than no-opping; otherwise it appends the
trimmed keyword to the category and returns changed=true. -/
theorem add_keyword_behavior (cats : CategoryStore) (category keyword : String) :
    (pyStrip keyword = "" →
        add_keyword_to_category cats category keyword = some (cats, false)) ∧
      (pyStrip keyword ∈ (cats.lookup category).getD [] →
        add_keyword_to_category cats category keyword = some (cats, false)) ∧
      (pyStrip keyword ≠ "" → cats.lookup category = none →
        add_keyword_to_category cats category keyword = none) ∧
      (∀ ks, pyStrip keyword ≠ "" → cats.lookup category = some ks →
        pyStrip keyword ∉ ks →
        add_keyword_to_category cats category keyword =
          some (cats.map fun p =>
            if p.1 = category then (p.1, p.2 ++ [pyStrip keyword]) else p, true)) := by
  refine ⟨fun h => ?_, fun h => ?_, fun h1 h2 => ?_, fun ks h1 h2 h3 => ?_⟩
  · simp [add_keyword_to_category, h]
  · have hneg : ¬(pyStrip keyword ≠ "" ∧
        pyStrip keyword ∉ (cats.lookup category).getD []) := by
      rintro ⟨_, hno⟩; exact hno h
    simp only [add_keyword_to_category, if_neg hneg]
  · simp [add_keyword_to_category, h1, h2]
  · simp [add_keyword_to_category, h1, h2, h3]

/-- Witness for C8 amended at a concrete input: appending a fresh keyword
to an existing category stores its trimmed form and reports a change. -/
theorem add_keyword_behavior_witness :
    pyStrip " beer " ≠ "" ∧
      (([("Food", ["pizza"])] : CategoryStore).lookup "Food" = some ["pizza"]) ∧
      pyStrip " beer " ∉ ["pizza"] ∧
      add_keyword_to_category [("Food", ["pizza"])] "Food" " beer " =
        some ([("Food", ["pizza", "beer"])], true) := by
  refine ⟨by decide, by decide, by decide, ?_⟩
  have h := (add_keyword_behavior [("Food", ["pizza"])] "Food" " beer ").2.2.2
    ["pizza"] (by decide) (by decide) (by decide)
  rw [h]
  decide

/-- C9: no row whose Type is the reserved INTEREST marker survives into the
parsed output of load_statement, whatever its other fields, the detected
currency, or the category store. -/
theorem interest_rows_removed (currency : String) (cats : CategoryStore)
    (rows : List RawRow) (r : Row)
    (h : r ∈ (load_statement currency cats rows).1) : r.type ≠ "INTEREST" := by
  simp only [load_statement] at h
  rw [categorize_assigns_last_match] at h
  rcases List.mem_map.mp h with ⟨r0, hr0, hre⟩
  rcases List.mem_filterMap.mp hr0 with ⟨a, ha, hfa⟩
  have hatype : ¬ a.type = "INTEREST" := by
    have hmem := List.mem_filter.mp ha
    simpa using hmem.2
  rcases Option.map_eq_some'.mp hfa with ⟨q, _, hq⟩
  have ht : r.type = a.type := by
    rw [← hre, ← hq]
    rfl
  rw [ht]
  exact hatype

/-- Witness for C9 at a concrete statement containing an interest row: the
surviving card payment is in the output and is not an interest row. -/
theorem interest_rows_removed_witness :
    processedCard ∈ (load_statement "HUF" [] sampleStatement).1 ∧
      processedCard.type ≠ "INTEREST" :=
  ⟨by with_unfolding_all decide,
    interest_rows_removed "HUF" [] sampleStatement processedCard
      (by with_unfolding_all decide)⟩

theorem length_filterMap_map_opt {α β γ : Type _} (l : List α)
    (g : α → Option β) (f : α → β → γ) :
    (l.filterMap fun a => (g a).map (f a)).length =
      (l.filter fun a => (g a).isSome).length := by
  induction l with
  | nil => rfl
  | cons a t ih =>
    cases hg : g a with
    | none => simpa [List.filterMap_cons, List.filter_cons, hg] using ih
    | some b => simpa [List.filterMap_cons, List.filter_cons, hg] using ih

theorem length_keep_add_length_drop (l : List RawRow) :
    (l.filter fun r => (toNumericCoerce r.balance).isSome).length +
        (l.filter fun r => toNumericCoerce r.balance = none).length = l.length := by
  induction l with
  | nil => rfl
  | cons a t ih =>
    cases hg : toNumericCoerce a.balance with
    | none => simp [List.filter_cons, hg]; omega
    | some q => simp [List.filter_cons, hg]; omega

/-- C7: balance validation is a partial-failure policy. The parsed ledger
keeps exactly the non-interest rows whose Balance coerces to a number, the
parse never fails as a whole, and the warning list names exactly the
dropped rows, each by its Description and rounded Amount, in order. -/
theorem balance_drop_partial_failure (currency : String) (cats : CategoryStore)
    (rows : List RawRow) :
    (load_statement currency cats rows).1.length =
        ((rows.filter fun r => r.type ≠ "INTEREST").filter fun r =>
          (toNumericCoerce r.balance).isSome).length ∧
      (load_statement currency cats rows).2 =
        ((rows.filter fun r => r.type ≠ "INTEREST").filter fun r =>
          toNumericCoerce r.balance = none).map
          (fun r => (r.description, roundAmount currency r.amount)) ∧
      (load_statement currency cats rows).1.length +
          (load_statement currency cats rows).2.length =
        (rows.filter fun r => r.type ≠ "INTEREST").length := by
  have hlen : (load_statement currency cats rows).1.length =
      ((rows.filter fun r => r.type ≠ "INTEREST").filter fun r =>
        (toNumericCoerce r.balance).isSome).length := by
    simp only [load_statement]
    rw [categorize_assigns_last_match, List.length_map]
    exact length_filterMap_map_opt _ _ _
  refine ⟨hlen, rfl, ?_⟩
  have hwarn : (load_statement currency cats rows).2.length =
      ((rows.filter fun r => r.type ≠ "INTEREST").filter fun r =>
        toNumericCoerce r.balance = none).length := by
    simp only [load_statement, List.length_map]
  rw [hlen, hwarn]
  exact length_keep_add_length_drop _

/-- C10: every Balance in the parsed output is a whole number, for every
detected currency, including currencies whose Amounts keep 2 decimals. -/
theorem balance_rounded_to_integer (currency : String) (cats : CategoryStore)
    (rows : List RawRow) (r : Row)
    (h : r ∈ (load_statement currency cats rows).1) :
    ∃ z : ℤ, r.balance = (z : ℚ) := by
  simp only [load_statement] at h
  rw [categorize_assigns_last_match] at h
  rcases List.mem_map.mp h with ⟨r0, hr0, hre⟩
  rcases List.mem_filterMap.mp hr0 with ⟨a, _, hfa⟩
  rcases Option.map_eq_some'.mp hfa with ⟨q, _, hq⟩
  refine ⟨roundHalfToEven q, ?_⟩
  rw [← hre, ← hq]
  rfl

/-- Witness for C10 at a concrete input under a 2-decimal currency: the
parsed card payment is in the output with a whole-number balance. -/
theorem balance_rounded_to_integer_witness :
    processedCard ∈ (load_statement "EUR" [] [cardRaw]).1 ∧
      ∃ z : ℤ, processedCard.balance = (z : ℚ) :=
  ⟨by with_unfolding_all decide,
    balance_rounded_to_integer "EUR" [] [cardRaw] processedCard
      (by with_unfolding_all decide)⟩

/-- C5: encryption round-trips; decryption under any other key fails
closed with none, and raw non-token input (truncated, corrupted, or legacy
plaintext) also fails closed, never yielding garbage. -/
theorem encryption_round_trip (p s : String) (k k1 k2 : Key) (hne : k1 ≠ k2) :
    decrypt_data (encrypt_data p k) k = some p ∧
      decrypt_data (encrypt_data p k1) k2 = none ∧
      decrypt_data (.raw s) k = none := by
  refine ⟨?_, ?_, rfl⟩
  · simp [encrypt_data, decrypt_data]
  · simp [encrypt_data, decrypt_data, hne]

/-- Witness for C5 at concrete keys and payloads. -/
theorem encryption_round_trip_witness :
    aliceKey ≠ bobKey ∧
      (decrypt_data (encrypt_data "ledger" aliceKey) aliceKey = some "ledger" ∧
        decrypt_data (encrypt_data "ledger" aliceKey) bobKey = none ∧
        decrypt_data (.raw "corrupted") aliceKey = none) :=
  ⟨by decide,
    encryption_round_trip "ledger" "corrupted" aliceKey aliceKey bobKey (by decide)⟩

/-- Amended C6: when the requesting identity is neither the blob's owner
nor admin AND the owner is not admin, readUserBlob refuses with none (the
not-found presentation); the code additionally lets any logged-in
requester read admin-owned blobs, which the claim as stated rules out. -/
theorem read_blob_authorization (st : StorageState) (path username requester : String)
    (hsess : st.sessionUsername = some requester)
    (h1 : requester ≠ username) (h2 : requester ≠ "admin")
    (h3 : username ≠ "admin") :
    read_encrypted_github_file st path username = none := by
  have hcond : sessionFalsy st.sessionUsername ∨
      (st.sessionUsername ≠ some username ∧ st.sessionUsername ≠ some "admin" ∧
        username ≠ "admin") := by
    refine Or.inr ⟨?_, ?_, h3⟩
    · rw [hsess]; intro he; exact h1 (Option.some.inj he)
    · rw [hsess]; intro he; exact h2 (Option.some.inj he)
  by_cases hr : st.repoConfigured
  · simp [read_encrypted_github_file, hr, hcond]
  · simp [read_encrypted_github_file, hr]

/-- Witness for the amended C6: mallory, logged in, asks for a blob owned
by bob and is refused with none. -/
theorem read_blob_authorization_witness :
    deniedReadState.sessionUsername = some "mallory" ∧
      ("mallory" ≠ "bob") ∧ ("mallory" ≠ "admin") ∧ ("bob" ≠ "admin") ∧
      read_encrypted_github_file deniedReadState
        "data/dataframes/bob_dataframe.csv" "bob" = none :=
  ⟨rfl, by decide, by decide, by decide,
    read_blob_authorization deniedReadState "data/dataframes/bob_dataframe.csv"
      "bob" "mallory" rfl (by decide) (by decide) (by decide)⟩

/-- Counterexample to C6 as stated: alice is neither the owner nor admin,
yet reading the admin-owned blob succeeds and returns its content instead
of none, because the guard also admits any logged-in requester when the
owner is admin. -/
theorem read_blob_nonowner_counterexample :
    adminReadState.sessionUsername = some "alice" ∧ ("alice" ≠ "admin") ∧
      read_encrypted_github_file adminReadState
        "data/categories/categories.json" "admin" = some "{}" := by
  refine ⟨rfl, by decide, by decide⟩

/-- C4 evaluated at its failing input: carol has two blobs, the dataframe
decryptable under her old key and the categories blob corrupted. The
password change fails (False) and leaves the credential record unchanged,
as the claim says, but it has already re-encrypted and written the
dataframe under the new key, so after the failed call not one of her blobs
decrypts with the old key: the ReKeying failure does not roll back, and
the user is locked out of the re-keyed blob. -/
theorem change_password_not_atomic :
    (change_password carolState (fun _ => true) "salt1"
        "carol" "oldpw" "newpw" "newpw").1 = false ∧
      (change_password carolState (fun _ => true) "salt1"
          "carol" "oldpw" "newpw" "newpw").2.users = carolState.users ∧
      (change_password carolState (fun _ => true) "salt1"
            "carol" "oldpw" "newpw" "newpw").2.files.lookup
          "data/dataframes/carol_dataframe.csv" =
        some (.token (derive_key_from_password "carol" ⟨"salt1", "newpw"⟩)
          "LEDGER") ∧
      ∀ pb ∈ (change_password carolState (fun _ => true) "salt1"
          "carol" "oldpw" "newpw" "newpw").2.files,
        decrypt_data pb.2 (derive_key_from_password "carol" carolOldHash) = none := by
  decide

end FinanceDashboard
